import Mathlib

/-!
Shallow embedding of the task auction and coordination engine implemented in
src/webots/controllers/coordinator_supervisor/coordinator_supervisor.py.

Numeric values (budgets, scores, reputations, times) are modelled as exact
rationals.  Python dictionaries keyed by task id / robot name are modelled as
insertion-ordered association lists, matching Python dict iteration order.
Messages sent through the Webots emitter are collected in an output list; log
prints carry no state and are modelled only where they distinguish outcomes
(the close reason of an auction).  Blockchain client calls mutate no engine
state that any claim mentions (they only stash transaction metadata on
success) and the engine must work with a no-op settlement stub, so they are
omitted from the state transition functions.
-/

namespace RobotSwarm

/-- A bid message payload as received by CoordinatorSupervisor._handle_bid:
taskId, robotId and bidAmount are accessed unconditionally; estimatedTime,
capabilityMatch and reputation are read with .get defaults inside
_select_auction_winner, so they are optional here. -/
structure Bid where
  taskId : Nat
  robotId : String
  bidAmount : ℚ
  estimatedTime : Option ℚ := none
  capabilityMatch : Option ℚ := none
  reputation : Option ℚ := none
deriving DecidableEq

/-- The Task dataclass of coordinator_supervisor.py. -/
structure Task where
  task_id : Nat
  mission_id : Nat
  task_type : String
  description : String
  location : ℚ × ℚ
  required_capabilities : List Nat
  budget : ℚ
  deadline : ℚ
  status : String
  assigned_robot : Option String := none
  bids : List Bid := []
  start_time : Option ℚ := none
  completion_time : Option ℚ := none
deriving DecidableEq

/-- A robot record as initialised in CoordinatorSupervisor._initialize_robots. -/
structure Robot where
  name : String
  position : List ℚ := [0, 0, 0]
  status : String := "idle"
  current_task : Option Nat := none
  capabilities : List Nat
  reputation : ℚ := 0.9
  battery : ℚ := 100
  last_seen : ℚ := 0
deriving DecidableEq

/-- The mutable coordinator state touched by the claims: the tasks dict, the
robots dict and the active_auctions dict (task_id to auction_end_time).
Missions are never read by the operations under verification. -/
structure CoordState where
  tasks : List (Nat × Task)
  robots : List (String × Robot)
  active_auctions : List (Nat × ℚ)
deriving DecidableEq

/-- Messages the coordinator emits through the Webots emitter in the
operations under verification (task_assignment in _close_auction and
task_timeout in _check_task_timeouts). -/
inductive Msg where
  | task_assignment (taskId : Nat) (robotId : String) (waypoints : List (ℚ × ℚ))
      (deadline : ℚ) (start_time : ℚ)
  | task_timeout (taskId : Nat)
deriving DecidableEq

/-- Outcome of one _close_auction call, mirroring the three distinct log
branches of the source: no bids received, no suitable winner, or a task
assignment. -/
inductive CloseReason where
  | unknownTask
  | noBids
  | noWinner
  | assigned (robotId : String)
deriving DecidableEq

/-- Dictionary lookup on an insertion-ordered association list. -/
def assocLookup {α β : Type} [DecidableEq α] : List (α × β) → α → Option β
  | [], _ => none
  | e :: rest, k => if e.1 = k then some e.2 else assocLookup rest k

/-- In-place mutation of the value stored under a key, as Python statements
like self.tasks[task_id].status = ... perform; absent keys are untouched. -/
def assocUpdate {α β : Type} [DecidableEq α] (l : List (α × β)) (k : α) (f : β → β) :
    List (α × β) :=
  l.map (fun e => if e.1 = k then (e.1, f e.2) else e)

/-- Deletion of a key, as del self.active_auctions[task_id] performs. -/
def assocErase {α β : Type} [DecidableEq α] (l : List (α × β)) (k : α) : List (α × β) :=
  l.filter (fun e => decide (e.1 ≠ k))

/-- The composite bid score computed inside _select_auction_winner: 40% cost,
30% capability match, 20% reputation, 10% time estimate, with the source's
dict .get defaults (0.5, 0.5 and 300) and the hard-coded 300-second
normalisation of the time term. -/
def bidScore (budget : ℚ) (bid : Bid) : ℚ :=
  let cost_score := (budget - bid.bidAmount) / budget
  let capability_score := bid.capabilityMatch.getD 0.5
  let reputation_score := bid.reputation.getD 0.5
  let time_score := max 0 (1.0 - bid.estimatedTime.getD 300 / 300)
  cost_score * 0.4 + capability_score * 0.3 + reputation_score * 0.2 + time_score * 0.1

/-- The availability filter of _select_auction_winner: a bid is skipped iff
its robot is a known robot whose status is not idle. -/
def bidEligible (robots : List (String × Robot)) (bid : Bid) : Bool :=
  match assocLookup robots bid.robotId with
  | some r => decide (r.status = "idle")
  | none => true

/-- The scan of _select_auction_winner over task.bids, carrying best_score
(initially -1) and best_bid (initially None) and replacing them on a strict
score improvement. -/
def selectLoop (robots : List (String × Robot)) (budget : ℚ) :
    List Bid → ℚ → Option Bid → Option Bid
  | [], _, best_bid => best_bid
  | bid :: rest, best_score, best_bid =>
    if bidEligible robots bid then
      let total_score := bidScore budget bid
      if best_score < total_score then
        selectLoop robots budget rest total_score (some bid)
      else
        selectLoop robots budget rest best_score best_bid
    else
      selectLoop robots budget rest best_score best_bid

/-- CoordinatorSupervisor._select_auction_winner. -/
def select_auction_winner (robots : List (String × Robot)) (task : Task) : Option Bid :=
  if task.bids.isEmpty then none
  else selectLoop robots task.budget task.bids (-1) none

/-- CoordinatorSupervisor._generate_task_waypoints. -/
def generate_task_waypoints (task : Task) : List (ℚ × ℚ) :=
  let tl := task.location
  if task.task_type = "scan" then
    [(tl.1 - 1, tl.2 - 1), (tl.1 + 1, tl.2 - 1), (tl.1 + 1, tl.2 + 1),
     (tl.1 - 1, tl.2 + 1), (tl.1, tl.2)]
  else if task.task_type = "delivery" then
    [tl]
  else if task.task_type = "reconnaissance" then
    [(tl.1, tl.2 - 2), (tl.1 + 2, tl.2), (tl.1, tl.2 + 2), (tl.1 - 2, tl.2), (tl.1, tl.2)]
  else
    [tl]

/-- CoordinatorSupervisor._close_auction at wall-clock time now.  Returns the
new state, the emitted messages and the close reason.  The source indexes
self.tasks[task_id] directly and is only ever called with a known id; an
unknown id is mapped to a no-op here to keep the function total. -/
def close_auction (s : CoordState) (task_id : Nat) (now : ℚ) :
    CoordState × List Msg × CloseReason :=
  match assocLookup s.tasks task_id with
  | none => (s, [], CloseReason.unknownTask)
  | some task =>
    if task.bids.isEmpty then
      ({ s with tasks := assocUpdate s.tasks task_id (fun t => { t with status := "failed" }) },
       [], CloseReason.noBids)
    else
      match select_auction_winner s.robots task with
      | none =>
        ({ s with tasks := assocUpdate s.tasks task_id (fun t => { t with status := "failed" }) },
         [], CloseReason.noWinner)
      | some winner =>
        let tasks1 := assocUpdate s.tasks task_id (fun t =>
          { t with assigned_robot := some winner.robotId, status := "assigned",
                   start_time := some now })
        let robots1 := assocUpdate s.robots winner.robotId (fun r =>
          { r with status := "assigned", current_task := some task_id })
        let waypoints := generate_task_waypoints task
        ({ s with tasks := tasks1, robots := robots1 },
         [Msg.task_assignment task_id winner.robotId waypoints task.deadline now],
         CloseReason.assigned winner.robotId)

/-- CoordinatorSupervisor._handle_bid: unknown task ids and closed auctions
are ignored; otherwise the bid is appended and, because the early-close
policy fires as soon as len(task.bids) >= 1, the auction is closed at once.
The blockchain place_bid call only stashes transaction metadata and is
omitted. -/
def handle_bid (s : CoordState) (bid : Bid) (now : ℚ) : CoordState × List Msg :=
  match assocLookup s.tasks bid.taskId with
  | none => (s, [])
  | some task =>
    if task.status ≠ "auction_open" then (s, [])
    else
      let s1 := { s with
        tasks := assocUpdate s.tasks bid.taskId (fun t => { t with bids := t.bids ++ [bid] }) }
      if (task.bids ++ [bid]).length ≥ 1 then
        let r := close_auction s1 bid.taskId now
        (r.1, r.2.1)
      else
        (s1, [])

/-- The three reputation outcomes of section 4.5 of the design: the arithmetic
is the one inlined in _process_verified_task (success and failure branches)
and _check_task_timeouts (timeout branch). -/
inductive Outcome where
  | success
  | failure
  | timeout
deriving DecidableEq

/-- The reputation update applied for one outcome: plus 0.05 capped at 1.0 on
success, minus 0.1 floored at 0.1 on failure or timeout, exactly as the
min/max expressions at lines 601, 615 and 791 of the source compute. -/
def recordOutcome (r : ℚ) : Outcome → ℚ
  | Outcome.success => min 1.0 (r + 0.05)
  | Outcome.failure => max 0.1 (r - 0.1)
  | Outcome.timeout => max 0.1 (r - 0.1)

/-- CoordinatorSupervisor._process_verified_task: marks the task verified or
failed and applies the reputation update to the assigned robot when that
robot is known.  The source indexes self.tasks[task_id] directly; the task id
always exists at every call site, and an unknown id is a no-op here for
totality. -/
def process_verified_task (s : CoordState) (task_id : Nat) (success : Bool) : CoordState :=
  match assocLookup s.tasks task_id with
  | none => s
  | some task =>
    if success then
      let s1 := { s with
        tasks := assocUpdate s.tasks task_id (fun t => { t with status := "verified" }) }
      match task.assigned_robot with
      | some rid =>
        { s1 with robots := assocUpdate s1.robots rid (fun r =>
            { r with reputation := min 1.0 (r.reputation + 0.05) }) }
      | none => s1
    else
      let s1 := { s with
        tasks := assocUpdate s.tasks task_id (fun t => { t with status := "failed" }) }
      match task.assigned_robot with
      | some rid =>
        { s1 with robots := assocUpdate s1.robots rid (fun r =>
            { r with reputation := max 0.1 (r.reputation - 0.1) }) }
      | none => s1

/-- CoordinatorSupervisor._handle_task_completion: rejects unknown tasks and
reports from a robot other than the recorded assigned_robot, then marks the
task completed and runs proof verification.  Both the demo and the
blockchain verification paths end in _process_verified_task with a success
flag; that external verdict is the verified argument here. -/
def handle_task_completion (s : CoordState) (task_id : Nat) (robot_id : String)
    (verified : Bool) (now : ℚ) : CoordState :=
  match assocLookup s.tasks task_id with
  | none => s
  | some task =>
    if task.assigned_robot ≠ some robot_id then s
    else
      let s1 := { s with
        tasks := assocUpdate s.tasks task_id (fun t =>
          { t with status := "completed", completion_time := some now }) }
      process_verified_task s1 task_id verified

/-- One iteration of the _check_task_timeouts loop over self.tasks.items():
an assigned task past its deadline becomes expired, its robot (when known)
returns to idle with its current task cleared and its reputation penalised,
and a task_timeout message is emitted. -/
def timeoutStep (now : ℚ) (acc : CoordState × List Msg) (e : Nat × Task) :
    CoordState × List Msg :=
  let task := e.2
  if task.status = "assigned" ∧ task.deadline < now then
    let st := acc.1
    let st1 := { st with
      tasks := assocUpdate st.tasks e.1 (fun t => { t with status := "expired" }) }
    let st2 :=
      match task.assigned_robot with
      | some rid =>
        { st1 with robots := assocUpdate st1.robots rid (fun r =>
            { r with status := "idle", current_task := none,
                     reputation := max 0.1 (r.reputation - 0.1) }) }
      | none => st1
    (st2, acc.2 ++ [Msg.task_timeout e.1])
  else acc

/-- CoordinatorSupervisor._check_task_timeouts at wall-clock time now. -/
def check_task_timeouts (s : CoordState) (now : ℚ) : CoordState × List Msg :=
  s.tasks.foldl (timeoutStep now) (s, [])

/-- CoordinatorSupervisor._check_auction_timeouts: collects the auctions
whose end time has passed, closes each and deletes it from active_auctions. -/
def check_auction_timeouts (s : CoordState) (now : ℚ) : CoordState × List Msg :=
  let expired := ((s.active_auctions.filter (fun e => decide (e.2 ≤ now))).map Prod.fst)
  expired.foldl
    (fun acc task_id =>
      let r := close_auction acc.1 task_id now
      ({ r.1 with active_auctions := assocErase r.1.active_auctions task_id },
       acc.2 ++ r.2.1))
    (s, [])

/-- Terminal task statuses of the lifecycle (section 4.2 of the design):
verified, failed and expired. -/
def nonTerminalB (st : String) : Bool :=
  !(st == "verified" || st == "failed" || st == "expired")

/-- Number of non-terminal tasks whose assigned_robot is the given agent. -/
def assignedCount (s : CoordState) (a : String) : Nat :=
  (s.tasks.filter (fun e =>
    nonTerminalB e.2.status && (e.2.assigned_robot == some a))).length

/-- First half of the claimed invariant: no agent id is the assigned robot of
two simultaneously non-terminal tasks. -/
def noDoubleAssignB (s : CoordState) : Bool :=
  s.tasks.all (fun e =>
    !(nonTerminalB e.2.status) ||
      (match e.2.assigned_robot with
       | some a => assignedCount s a == 1
       | none => true))

/-- Second half of the claimed invariant: a robot's status is assigned iff it
is the assigned_robot of exactly one non-terminal task. -/
def statusIffAssignedB (s : CoordState) : Bool :=
  s.robots.all (fun e => (e.2.status == "assigned") == (assignedCount s e.1 == 1))

/-- The full no-double-assignment invariant claimed for the coordinator. -/
def coordInvB (s : CoordState) : Bool :=
  noDoubleAssignB s && statusIffAssignedB s

/-- Looking up the updated key returns the mapped value. -/
theorem assocLookup_update_self {α β : Type} [DecidableEq α] (l : List (α × β)) (k : α)
    (f : β → β) : assocLookup (assocUpdate l k f) k = (assocLookup l k).map f := by
  induction l with
  | nil => rfl
  | cons e rest ih =>
    simp only [assocUpdate, List.map_cons]
    by_cases h : e.1 = k
    · simp [assocLookup, h]
    · simpa [assocLookup, assocUpdate, h] using ih

/-- Looking up a different key is unaffected by an update. -/
theorem assocLookup_update_ne {α β : Type} [DecidableEq α] (l : List (α × β)) (k k' : α)
    (f : β → β) (h : k' ≠ k) :
    assocLookup (assocUpdate l k f) k' = assocLookup l k' := by
  induction l with
  | nil => rfl
  | cons e rest ih =>
    by_cases he : e.1 = k
    · have hne : e.1 ≠ k' := fun hc => h (hc.symm.trans he)
      simp only [assocUpdate, List.map_cons, if_pos he]
      show assocLookup ((e.1, f e.2) :: assocUpdate rest k f) k' = assocLookup (e :: rest) k'
      simp only [assocLookup, hne, if_false]
      exact ih
    · simp only [assocUpdate, List.map_cons, if_neg he]
      show assocLookup (e :: assocUpdate rest k f) k' = assocLookup (e :: rest) k'
      by_cases he' : e.1 = k'
      · simp only [assocLookup, he', if_true]
      · simp only [assocLookup, he', if_false]
        exact ih

/-- On a list with duplicate-free keys, membership determines the lookup. -/
theorem assocLookup_eq_some_of_mem {α β : Type} [DecidableEq α] {l : List (α × β)}
    {k : α} {b : β} (hmem : (k, b) ∈ l) (hnd : (l.map Prod.fst).Nodup) :
    assocLookup l k = some b := by
  induction l with
  | nil => cases hmem
  | cons e rest ih =>
    rcases List.mem_cons.mp hmem with h | h
    · subst h; simp [assocLookup]
    · have hk : k ∈ rest.map Prod.fst := List.mem_map.mpr ⟨(k, b), h, rfl⟩
      have he : e.1 ≠ k := by
        intro hc
        exact (List.nodup_cons.mp (by simpa using hnd)).1 (hc ▸ hk)
      simp only [assocLookup, he, if_false]
      exact ih h (List.nodup_cons.mp (by simpa using hnd)).2

/-- A successful lookup certifies membership. -/
theorem mem_of_assocLookup_eq_some {α β : Type} [DecidableEq α] {l : List (α × β)}
    {k : α} {b : β} (h : assocLookup l k = some b) : (k, b) ∈ l := by
  induction l with
  | nil => cases h
  | cons e rest ih =>
    by_cases he : e.1 = k
    · simp only [assocLookup, he, if_true] at h
      have : e = (k, b) := by
        cases e
        cases h
        simpa using he
      exact this ▸ List.mem_cons_self _ _
    · simp only [assocLookup, he, if_false] at h
      exact List.mem_cons_of_mem _ (ih h)

/-- Status of a task in a state, for readable concrete statements. -/
def taskStatus (s : CoordState) (id : Nat) : Option String :=
  (assocLookup s.tasks id).map Task.status

/-- The robot_alpha record as _initialize_robots builds it. -/
def robotAlpha : Robot :=
  { name := "robot_alpha", capabilities := [120, 80, 70, 90, 70] }

/-- The zone-A scan task of the demo mission (budget 5, deadline horizon
300 s taken as absolute deadline time, auction open). -/
def taskScanA : Task :=
  { task_id := 1, mission_id := 1, task_type := "scan",
    description := "Scan disaster zone A for survivors", location := (-6, -6),
    required_capabilities := [100, 50, 60, 80, 80], budget := 5, deadline := 300,
    status := "auction_open" }

/-- Coordinator state right after the demo mission opens the zone-A auction
(auction end time 30 per AUCTION_DURATION). -/
def demoState : CoordState :=
  { tasks := [(1, taskScanA)], robots := [("robot_alpha", robotAlpha)],
    active_auctions := [(1, 30)] }

/-- A well-formed bid from robot_alpha on task 1. -/
def bidAlpha : Bid :=
  { taskId := 1, robotId := "robot_alpha", bidAmount := 3, estimatedTime := some 100,
    capabilityMatch := some 0.8, reputation := some 0.9 }

/-- State after robot_alpha's bid arrives at time 10: the early-close policy
fires, task 1 is assigned to robot_alpha. -/
def assignedState : CoordState := (handle_bid demoState bidAlpha 10).1

/-- State after the task-timeout scan runs at time 400, past the deadline of
task 1: the task expires and robot_alpha is freed. -/
def expiredState : CoordState := (check_task_timeouts assignedState 400).1

/-- The robot_alpha record while it is working on task 1. -/
def busyAlpha : Robot :=
  { robotAlpha with status := "assigned", current_task := some 1 }

/-- The zone-A task with robot_alpha's bid recorded, auction still open. -/
def openTaskWithBid : Task := { taskScanA with bids := [bidAlpha] }

/-- The zone-A task after assignment to robot_alpha. -/
def assignedTaskA : Task :=
  { taskScanA with status := "assigned", assigned_robot := some "robot_alpha",
                   bids := [bidAlpha], start_time := some 10 }

/-- A directly-written copy of the state after the first bid closes the
auction; used as a light concrete input for witnesses. -/
def assignedLitState : CoordState :=
  { tasks := [(1, assignedTaskA)], robots := [("robot_alpha", busyAlpha)],
    active_auctions := [(1, 30)] }

/-- A bid for a task id the coordinator does not know. -/
def bidUnknownTask : Bid := { taskId := 99, robotId := "robot_alpha", bidAmount := 3 }

/-- A bid whose amount 6 exceeds the task budget 5. -/
def bidOver : Bid :=
  { taskId := 1, robotId := "robot_alpha", bidAmount := 6, estimatedTime := some 100,
    capabilityMatch := some 0.8, reputation := some 0.9 }

/-- A maximal-score bid (score 1) placed by the busy robot_alpha. -/
def bidBest : Bid :=
  { taskId := 2, robotId := "robot_alpha", bidAmount := 0, estimatedTime := some 0,
    capabilityMatch := some 1, reputation := some 1 }

/-- A zero-score bid from an agent the coordinator has no record of. -/
def bidWeak : Bid :=
  { taskId := 2, robotId := "robot_beta", bidAmount := 100, estimatedTime := some 300,
    capabilityMatch := some 0, reputation := some 0 }

/-- An open auction holding the maximal-score bid of a busy robot followed by
a weak bid of an unknown robot. -/
def tieTask : Task :=
  { task_id := 2, mission_id := 1, task_type := "delivery",
    description := "Deliver emergency supplies to zone B", location := (6, -6),
    required_capabilities := [80, 120, 60, 70, 60], budget := 100, deadline := 300,
    status := "auction_open", bids := [bidBest, bidWeak] }

/-- Robot table in which robot_alpha is already assigned elsewhere. -/
def busyRobots : List (String × Robot) := [("robot_alpha", busyAlpha)]

/-- Characterisation of the _select_auction_winner scan: a returned winner
either was the carried best bid and nothing in the remaining list beats the
carried best score, or it is the first bid in list order that is eligible,
beats the carried score, strictly beats every earlier eligible bid and is not
strictly beaten by any later eligible bid. -/
theorem selectLoop_spec (robots : List (String × Robot)) (budget : ℚ) :
    ∀ (bids : List Bid) (bs : ℚ) (bb : Option Bid) (w : Bid),
      selectLoop robots budget bids bs bb = some w →
      (bb = some w ∧ ∀ b ∈ bids, bidEligible robots b = true → bidScore budget b ≤ bs) ∨
      (∃ l1 l2, bids = l1 ++ w :: l2 ∧ bidEligible robots w = true ∧
        bs < bidScore budget w ∧
        (∀ b ∈ l1, bidEligible robots b = true → bidScore budget b < bidScore budget w) ∧
        (∀ b ∈ l2, bidEligible robots b = true → bidScore budget b ≤ bidScore budget w)) := by
  intro bids
  induction bids with
  | nil =>
    intro bs bb w h
    left
    refine ⟨by simpa [selectLoop] using h, ?_⟩
    intro b hb
    cases hb
  | cons bid rest ih =>
    intro bs bb w h
    by_cases he : bidEligible robots bid = true
    · by_cases hlt : bs < bidScore budget bid
      · have h' : selectLoop robots budget rest (bidScore budget bid) (some bid) = some w := by
          simpa [selectLoop, he, hlt] using h
        rcases ih _ _ _ h' with ⟨hb, hall⟩ | ⟨l1, l2, hsplit, helig, hscore, h1, h2⟩
        · have hw : bid = w := by simpa using hb
          right
          subst hw
          refine ⟨[], rest, rfl, he, hlt, ?_, hall⟩
          intro b hb
          cases hb
        · right
          refine ⟨bid :: l1, l2, by simp [hsplit], helig, hlt.trans hscore, ?_, h2⟩
          intro b hb hbe
          rcases List.mem_cons.mp hb with hb | hb
          · exact hb ▸ hscore
          · exact h1 b hb hbe
      · have h' : selectLoop robots budget rest bs bb = some w := by
          simpa [selectLoop, he, hlt] using h
        rcases ih _ _ _ h' with ⟨hb, hall⟩ | ⟨l1, l2, hsplit, helig, hscore, h1, h2⟩
        · left
          refine ⟨hb, ?_⟩
          intro b hb' hbe
          rcases List.mem_cons.mp hb' with hb' | hb'
          · exact hb' ▸ le_of_not_lt hlt
          · exact hall b hb' hbe
        · right
          refine ⟨bid :: l1, l2, by simp [hsplit], helig, hscore, ?_, h2⟩
          intro b hb hbe
          rcases List.mem_cons.mp hb with hb | hb
          · exact hb ▸ lt_of_le_of_lt (le_of_not_lt hlt) hscore
          · exact h1 b hb hbe
    · have h' : selectLoop robots budget rest bs bb = some w := by
        simpa [selectLoop, he] using h
      rcases ih _ _ _ h' with ⟨hb, hall⟩ | ⟨l1, l2, hsplit, helig, hscore, h1, h2⟩
      · left
        refine ⟨hb, ?_⟩
        intro b hb' hbe
        rcases List.mem_cons.mp hb' with hb' | hb'
        · exact absurd (hb' ▸ hbe) he
        · exact hall b hb' hbe
      · right
        refine ⟨bid :: l1, l2, by simp [hsplit], helig, hscore, ?_, h2⟩
        intro b hb hbe
        rcases List.mem_cons.mp hb with hb | hb
        · exact absurd (hb ▸ hbe) he
        · exact h1 b hb hbe

/-- C1 (counterexample).  The claimed invariant is not preserved by message
handling: in the reachable state where robot_alpha's first bid closed the
zone-A auction the invariant holds, but after robot_alpha's completion
report is handled and verification succeeds, the task is terminal (verified)
while robot_alpha's status is still assigned, so the status-iff-one-open-task
biconditional fails. -/
theorem C1_invariant_counterexample :
    coordInvB assignedState = true ∧
    coordInvB (handle_task_completion assignedState 1 "robot_alpha" true 20) = false := by
  constructor
  · norm_num [assignedState, handle_bid, demoState, taskScanA, bidAlpha, close_auction,
      assocLookup, assocUpdate, select_auction_winner, selectLoop, bidEligible, bidScore,
      robotAlpha, max_def, coordInvB, noDoubleAssignB, statusIffAssignedB,
      assignedCount, nonTerminalB, List.all, List.filter]
    all_goals decide
  · norm_num [assignedState, handle_bid, demoState, taskScanA, bidAlpha, close_auction,
      assocLookup, assocUpdate, select_auction_winner, selectLoop, bidEligible, bidScore,
      robotAlpha, max_def, min_def, coordInvB, noDoubleAssignB, statusIffAssignedB,
      assignedCount, nonTerminalB, List.all, List.filter, handle_task_completion,
      process_verified_task]

/-- C1 (amended).  The part of the claim the code does satisfy: winner
selection never picks the bid of a known agent whose status is not idle — in
particular never the bid of an agent that is already assigned. -/
theorem C1_winner_selection_skips_busy_agents (robots : List (String × Robot)) (task : Task)
    (w : Bid) (r : Robot) (hw : select_auction_winner robots task = some w)
    (hr : assocLookup robots w.robotId = some r) : r.status = "idle" := by
  unfold select_auction_winner at hw
  by_cases hemp : task.bids.isEmpty
  · simp [hemp] at hw
  · simp only [hemp, Bool.false_eq_true, if_false] at hw
    have helig : bidEligible robots w = true := by
      rcases selectLoop_spec robots task.budget task.bids (-1) none w hw with ⟨hb, _⟩ | hrt
      · cases hb
      · exact hrt.choose_spec.choose_spec.2.1
    unfold bidEligible at helig
    rw [hr] at helig
    exact of_decide_eq_true helig

/-- C1 (witness).  Applying the amended theorem to the concrete one-robot,
one-bid auction: the winning bid comes from the idle robot_alpha. -/
theorem C1_winner_selection_skips_busy_agents_witness : robotAlpha.status = "idle" :=
  C1_winner_selection_skips_busy_agents [("robot_alpha", robotAlpha)] openTaskWithBid
    bidAlpha robotAlpha
    (by norm_num [select_auction_winner, selectLoop, bidEligible, assocLookup,
      openTaskWithBid, taskScanA, bidAlpha, robotAlpha, bidScore, max_def])
    rfl

/-- C2 (counterexample).  The selected winner is not always the bid with the
highest composite score: with robot_alpha busy, its maximal-score bid is
skipped and the strictly weaker bid of the unknown robot_beta wins. -/
theorem C2_highest_score_counterexample :
    select_auction_winner busyRobots tieTask = some bidWeak ∧
    bidBest ∈ tieTask.bids ∧
    bidScore tieTask.budget bidWeak < bidScore tieTask.budget bidBest := by
  refine ⟨?_, by simp [tieTask], ?_⟩
  · norm_num [select_auction_winner, selectLoop, bidEligible, assocLookup, busyRobots,
      busyAlpha, robotAlpha, tieTask, bidBest, bidWeak, bidScore, max_def]
    all_goals decide
  · norm_num [bidScore, tieTask, bidBest, bidWeak, max_def]

/-- C2 (amended).  Among eligible bids only — bids of known non-idle agents
are skipped — the winner is a bid of maximal composite score whose score
exceeds the initial best score -1, and among eligible maximal bids it is the
first in receipt (list) order: it strictly beats every earlier eligible bid
and is not strictly beaten by any later one.  Being a pure function of the
bid list, repeated evaluation yields the same winner; no timestamp or
agent-id tie-break exists. -/
theorem C2_winner_first_maximal_eligible (robots : List (String × Robot)) (task : Task)
    (w : Bid) (hw : select_auction_winner robots task = some w) :
    ∃ l1 l2, task.bids = l1 ++ w :: l2 ∧ bidEligible robots w = true ∧
      -1 < bidScore task.budget w ∧
      (∀ b ∈ l1, bidEligible robots b = true →
        bidScore task.budget b < bidScore task.budget w) ∧
      (∀ b ∈ l2, bidEligible robots b = true →
        bidScore task.budget b ≤ bidScore task.budget w) := by
  unfold select_auction_winner at hw
  by_cases hemp : task.bids.isEmpty
  · simp [hemp] at hw
  · simp only [hemp, Bool.false_eq_true, if_false] at hw
    rcases selectLoop_spec robots task.budget task.bids (-1) none w hw with ⟨hb, _⟩ | hrt
    · cases hb
    · exact hrt

/-- C2 (witness).  The amended characterisation applied to the concrete
one-bid auction of robot_alpha. -/
theorem C2_winner_first_maximal_eligible_witness :
    ∃ l1 l2, openTaskWithBid.bids = l1 ++ bidAlpha :: l2 ∧
      bidEligible [("robot_alpha", robotAlpha)] bidAlpha = true ∧
      -1 < bidScore openTaskWithBid.budget bidAlpha ∧
      (∀ b ∈ l1, bidEligible [("robot_alpha", robotAlpha)] b = true →
        bidScore openTaskWithBid.budget b < bidScore openTaskWithBid.budget bidAlpha) ∧
      (∀ b ∈ l2, bidEligible [("robot_alpha", robotAlpha)] b = true →
        bidScore openTaskWithBid.budget b ≤ bidScore openTaskWithBid.budget bidAlpha) :=
  C2_winner_first_maximal_eligible [("robot_alpha", robotAlpha)] openTaskWithBid bidAlpha
    (by norm_num [select_auction_winner, selectLoop, bidEligible, assocLookup,
      openTaskWithBid, taskScanA, bidAlpha, robotAlpha, bidScore, max_def])

/-- C3 (code bug).  Closing an already-closed auction is not a no-op: after
robot_alpha's first bid closes the zone-A auction early, the task id is still
in active_auctions (the early-close path never removes it), so the auction
timeout scan at time 40 invokes _close_auction a second time; the second
close finds the winning robot no longer idle, selects no winner, and flips
the assigned task to failed. -/
theorem C3_double_close_changes_state :
    taskStatus assignedState 1 = some "assigned" ∧
    (1, 30) ∈ assignedState.active_auctions ∧
    taskStatus (check_auction_timeouts assignedState 40).1 1 = some "failed" := by
  refine ⟨?_, ?_, ?_⟩
  · norm_num [assignedState, handle_bid, demoState, taskScanA, bidAlpha, close_auction,
      assocLookup, assocUpdate, select_auction_winner, selectLoop, bidEligible, bidScore,
      robotAlpha, taskStatus, max_def]
  · norm_num [assignedState, handle_bid, demoState, taskScanA, bidAlpha, close_auction,
      assocLookup, assocUpdate, select_auction_winner, selectLoop, bidEligible, bidScore,
      robotAlpha, max_def]
  · norm_num [assignedState, handle_bid, demoState, taskScanA, bidAlpha, close_auction,
      assocLookup, assocUpdate, assocErase, select_auction_winner, selectLoop, bidEligible,
      bidScore, robotAlpha, taskStatus, max_def, check_auction_timeouts, List.filter]

/-- C4 (code bug).  Terminal states are not absorbing: _handle_task_completion
checks only the reporting robot against assigned_robot, never the task
status, and expiry does not clear assigned_robot; so a completion report from
robot_alpha for the already-expired task 1 is accepted, the task status moves
from expired to verified, and robot_alpha's reputation is bumped again
(0.8 to 0.85) after the task was already terminal. -/
theorem C4_completion_accepted_on_expired_task :
    taskStatus expiredState 1 = some "expired" ∧
    taskStatus (handle_task_completion expiredState 1 "robot_alpha" true 401) 1 =
      some "verified" ∧
    (assocLookup (handle_task_completion expiredState 1 "robot_alpha" true 401).robots
      "robot_alpha").map Robot.reputation = some 0.85 := by
  refine ⟨?_, ?_, ?_⟩
  · norm_num [expiredState, assignedState, handle_bid, demoState, taskScanA, bidAlpha,
      close_auction, assocLookup, assocUpdate, select_auction_winner, selectLoop,
      bidEligible, bidScore, robotAlpha, taskStatus, max_def, check_task_timeouts,
      timeoutStep]
  · norm_num [expiredState, assignedState, handle_bid, demoState, taskScanA, bidAlpha,
      close_auction, assocLookup, assocUpdate, select_auction_winner, selectLoop,
      bidEligible, bidScore, robotAlpha, taskStatus, max_def, min_def, check_task_timeouts,
      timeoutStep, handle_task_completion, process_verified_task]
  · norm_num [expiredState, assignedState, handle_bid, demoState, taskScanA, bidAlpha,
      close_auction, assocLookup, assocUpdate, select_auction_winner, selectLoop,
      bidEligible, bidScore, robotAlpha, max_def, min_def, check_task_timeouts,
      timeoutStep, handle_task_completion, process_verified_task]

/-- C5 (counterexample).  A bid of amount 6 on the budget-5 zone-A task is
not rejected: it is appended to the bid list, the close-after-first-bid
policy fires so the auction does not remain open, and the over-budget bid
itself wins the task. -/
theorem C5_overbudget_bid_counterexample :
    bidOver.bidAmount > taskScanA.budget ∧
    taskStatus (handle_bid demoState bidOver 10).1 1 = some "assigned" ∧
    (assocLookup (handle_bid demoState bidOver 10).1.tasks 1).map Task.bids =
      some [bidOver] ∧
    (assocLookup (handle_bid demoState bidOver 10).1.tasks 1).map Task.assigned_robot =
      some (some "robot_alpha") := by
  refine ⟨by norm_num [bidOver, taskScanA], ?_, ?_, ?_⟩ <;>
    norm_num [handle_bid, demoState, taskScanA, bidOver, close_auction, assocLookup,
      assocUpdate, select_auction_winner, selectLoop, bidEligible, bidScore, robotAlpha,
      taskStatus, max_def]

/-- Closing an auction never changes the recorded bid list of the task. -/
theorem close_auction_preserves_bids (s : CoordState) (id : Nat) (now : ℚ) (task : Task)
    (h : assocLookup s.tasks id = some task) :
    ∃ t', assocLookup (close_auction s id now).1.tasks id = some t' ∧
      t'.bids = task.bids := by
  unfold close_auction
  rw [h]
  by_cases hemp : task.bids.isEmpty
  · refine ⟨{ task with status := "failed" }, ?_, rfl⟩
    simp [hemp, assocLookup_update_self, h]
  · cases hwin : select_auction_winner s.robots task with
    | none =>
      refine ⟨{ task with status := "failed" }, ?_, rfl⟩
      simp [hemp, hwin, assocLookup_update_self, h]
    | some winner =>
      refine ⟨{ task with assigned_robot := some winner.robotId, status := "assigned",
                          start_time := some now }, ?_, rfl⟩
      simp [hemp, hwin, assocLookup_update_self, h]

/-- C5 (amended).  There is no over-budget (or any other) bid validation in
_handle_bid: every bid for a known, auction-open task is appended to the
task's bid list whatever its amount, and survives the immediately triggered
auction close. -/
theorem C5_bid_recorded_and_auction_closed (s : CoordState) (bid : Bid) (now : ℚ)
    (task : Task) (htask : assocLookup s.tasks bid.taskId = some task)
    (hopen : task.status = "auction_open") :
    ∃ t', assocLookup (handle_bid s bid now).1.tasks bid.taskId = some t' ∧
      t'.bids = task.bids ++ [bid] := by
  unfold handle_bid
  rw [htask]
  simp only [hopen, ne_eq, not_true_eq_false, if_false, List.length_append,
    List.length_cons, ite_not]
  have hlen : ¬(task.bids.length + ([bid] : List Bid).length ≥ 1) = False := by
    simp [List.length_cons]
  have hlook : assocLookup
      (assocUpdate s.tasks bid.taskId (fun t => { t with bids := t.bids ++ [bid] }))
      bid.taskId = some { task with bids := task.bids ++ [bid] } := by
    rw [assocLookup_update_self, htask]
    rfl
  rcases close_auction_preserves_bids
      { s with tasks :=
          assocUpdate s.tasks bid.taskId (fun t => { t with bids := t.bids ++ [bid] }) }
      bid.taskId now { task with bids := task.bids ++ [bid] } hlook with ⟨t', ht', hb⟩
  refine ⟨t', ?_, by simpa using hb⟩
  simpa using ht'

/-- C5 (witness).  The amended statement applied to the over-budget bid on
the open zone-A auction. -/
theorem C5_bid_recorded_and_auction_closed_witness :
    ∃ t', assocLookup (handle_bid demoState bidOver 10).1.tasks bidOver.taskId = some t' ∧
      t'.bids = taskScanA.bids ++ [bidOver] :=
  C5_bid_recorded_and_auction_closed demoState bidOver 10 taskScanA rfl rfl

/-- The scoring formula as section 4.3 of the specification words it, over
the bid fields with the code's defaults supplied explicitly: 0.40 cost,
0.30 capability, 0.20 reputation, 0.10 time, reference time 300 seconds. -/
def scoringPolicySpec (budget bidAmount capabilityScore reputationScore
    estimatedTime referenceTime : ℚ) : ℚ :=
  0.40 * ((budget - bidAmount) / budget) + 0.30 * capabilityScore +
    0.20 * reputationScore + 0.10 * max 0 (1 - estimatedTime / referenceTime)

/-- C6 (confirmed).  The score the code computes for every bid equals the
specification's weighted sum with reference time 300 (the task deadline
horizon TASK_TIMEOUT) and the code's defaults 0.5, 0.5 and 300 for missing
capabilityMatch, reputation and estimatedTime fields. -/
theorem C6_scoring_formula_matches_spec (budget : ℚ) (bid : Bid) :
    bidScore budget bid =
      scoringPolicySpec budget bid.bidAmount (bid.capabilityMatch.getD 0.5)
        (bid.reputation.getD 0.5) (bid.estimatedTime.getD 300) 300 := by
  unfold bidScore scoringPolicySpec
  norm_num
  ring

/-- C7 (confirmed).  Closing an auction with an empty bid list fails the task
with the no-bids reason, leaves every robot record untouched and emits no
message. -/
theorem C7_no_bids_close_fails_task (s : CoordState) (id : Nat) (now : ℚ) (task : Task)
    (htask : assocLookup s.tasks id = some task) (hbids : task.bids = []) :
    taskStatus (close_auction s id now).1 id = some "failed" ∧
    (close_auction s id now).1.robots = s.robots ∧
    (close_auction s id now).2.1 = [] ∧
    (close_auction s id now).2.2 = CloseReason.noBids := by
  unfold close_auction
  rw [htask]
  simp [hbids, taskStatus, assocLookup_update_self, htask]

/-- C7 (witness).  The zone-A auction closed by timeout before any bid
arrives: task failed, robots untouched, nothing emitted. -/
theorem C7_no_bids_close_fails_task_witness :
    taskStatus (close_auction demoState 1 50).1 1 = some "failed" ∧
    (close_auction demoState 1 50).1.robots = demoState.robots ∧
    (close_auction demoState 1 50).2.1 = [] ∧
    (close_auction demoState 1 50).2.2 = CloseReason.noBids :=
  C7_no_bids_close_fails_task demoState 1 50 taskScanA rfl rfl

/-- C10 (confirmed).  A bid whose taskId is unknown to the coordinator is
dropped: the state is returned unchanged and nothing is emitted, so no bid
list, task status, robot record or auction changes. -/
theorem C10_unknown_task_bid_ignored (s : CoordState) (bid : Bid) (now : ℚ)
    (h : assocLookup s.tasks bid.taskId = none) :
    handle_bid s bid now = (s, []) := by
  unfold handle_bid
  rw [h]

/-- C10 (witness).  A bid for the unknown task 99 leaves the demo state
untouched. -/
theorem C10_unknown_task_bid_ignored_witness :
    handle_bid demoState bidUnknownTask 5 = (demoState, []) :=
  C10_unknown_task_bid_ignored demoState bidUnknownTask 5 rfl

/-- Variant of the update-miss lemma with the disequality first, packaged for
use as a simp rewrite. -/
theorem assocLookup_update_ne' {α β : Type} [DecidableEq α] {k k' : α} (h : k' ≠ k)
    (l : List (α × β)) (f : β → β) :
    assocLookup (assocUpdate l k f) k' = assocLookup l k' :=
  assocLookup_update_ne l k k' f h

/-- One timeout-scan iteration does not touch tasks stored under other ids. -/
theorem timeoutStep_tasks_ne (now : ℚ) (acc : CoordState × List Msg) (e : Nat × Task)
    (k : Nat) (hek : e.1 ≠ k) :
    assocLookup (timeoutStep now acc e).1.tasks k = assocLookup acc.1.tasks k := by
  unfold timeoutStep
  by_cases hc : e.2.status = "assigned" ∧ e.2.deadline < now
  · cases har : e.2.assigned_robot with
    | none => simp [hc, har, assocLookup_update_ne' (Ne.symm hek)]
    | some rid => simp [hc, har, assocLookup_update_ne' (Ne.symm hek)]
  · simp [hc]

/-- One timeout-scan iteration does not touch a robot that is not the
assigned robot of an expiring task. -/
theorem timeoutStep_robots_ne (now : ℚ) (acc : CoordState × List Msg) (e : Nat × Task)
    (rid : String)
    (hnr : e.2.status = "assigned" → e.2.deadline < now → e.2.assigned_robot ≠ some rid) :
    assocLookup (timeoutStep now acc e).1.robots rid = assocLookup acc.1.robots rid := by
  unfold timeoutStep
  by_cases hc : e.2.status = "assigned" ∧ e.2.deadline < now
  · cases har : e.2.assigned_robot with
    | none => simp [hc, har]
    | some rid' =>
      have hne : rid' ≠ rid := fun hh => hnr hc.1 hc.2 (by rw [har, hh])
      simp [hc, har, assocLookup_update_ne' (Ne.symm hne)]
  · simp [hc]

/-- One timeout-scan iteration only appends to the emitted messages. -/
theorem timeoutStep_msgs_mono (now : ℚ) (acc : CoordState × List Msg) (e : Nat × Task)
    (m : Msg) (hm : m ∈ acc.2) : m ∈ (timeoutStep now acc e).2 := by
  unfold timeoutStep
  by_cases hc : e.2.status = "assigned" ∧ e.2.deadline < now
  · cases har : e.2.assigned_robot with
    | none => simp [hc, har, hm]
    | some rid => simp [hc, har, hm]
  · simp [hc, hm]

/-- Folding the timeout scan over entries with other ids preserves a task
lookup. -/
theorem foldl_timeoutStep_tasks_pres (now : ℚ) (k : Nat) :
    ∀ (L : List (Nat × Task)) (acc : CoordState × List Msg), (∀ e ∈ L, e.1 ≠ k) →
      assocLookup (L.foldl (timeoutStep now) acc).1.tasks k = assocLookup acc.1.tasks k := by
  intro L
  induction L with
  | nil => intro acc _; rfl
  | cons e rest ih =>
    intro acc hk
    rw [List.foldl_cons, ih _ (fun e' he' => hk e' (List.mem_cons_of_mem _ he')),
      timeoutStep_tasks_ne now acc e k (hk e (List.mem_cons_self _ _))]

/-- Folding the timeout scan over entries not assigned to a robot preserves
that robot's record. -/
theorem foldl_timeoutStep_robots_pres (now : ℚ) (rid : String) :
    ∀ (L : List (Nat × Task)) (acc : CoordState × List Msg),
      (∀ e ∈ L, e.2.status = "assigned" → e.2.deadline < now →
        e.2.assigned_robot ≠ some rid) →
      assocLookup (L.foldl (timeoutStep now) acc).1.robots rid =
        assocLookup acc.1.robots rid := by
  intro L
  induction L with
  | nil => intro acc _; rfl
  | cons e rest ih =>
    intro acc hk
    rw [List.foldl_cons, ih _ (fun e' he' => hk e' (List.mem_cons_of_mem _ he')),
      timeoutStep_robots_ne now acc e rid (hk e (List.mem_cons_self _ _))]

/-- Folding the timeout scan never drops an already-emitted message. -/
theorem foldl_timeoutStep_msgs_mono (now : ℚ) (m : Msg) :
    ∀ (L : List (Nat × Task)) (acc : CoordState × List Msg), m ∈ acc.2 →
      m ∈ (L.foldl (timeoutStep now) acc).2 := by
  intro L
  induction L with
  | nil => intro acc hm; exact hm
  | cons e rest ih =>
    intro acc hm
    rw [List.foldl_cons]
    exact ih _ (timeoutStep_msgs_mono now acc e m hm)

/-- C8 (confirmed).  For every assigned task whose deadline has passed with
no completion report, one run of the task-timeout scan marks the task
expired, returns its assigned robot to idle with its current task cleared
and its reputation lowered by 0.1 floored at 0.1, and emits a task_timeout
message for the task.  The uniqueness hypothesis says no other expiring task
names the same robot, which holds whenever the claimed no-double-assignment
discipline does. -/
theorem C8_deadline_expiry (s : CoordState) (id : Nat) (task : Task) (rid : String)
    (rob : Robot) (now : ℚ)
    (htask : assocLookup s.tasks id = some task)
    (hstatus : task.status = "assigned")
    (hdl : task.deadline < now)
    (har : task.assigned_robot = some rid)
    (hrob : assocLookup s.robots rid = some rob)
    (hnd : (s.tasks.map Prod.fst).Nodup)
    (huniq : ∀ e ∈ s.tasks, e.2.status = "assigned" → e.2.deadline < now →
        e.2.assigned_robot = some rid → e.1 = id) :
    taskStatus (check_task_timeouts s now).1 id = some "expired" ∧
    assocLookup (check_task_timeouts s now).1.robots rid =
      some { rob with status := "idle", current_task := none,
                      reputation := max 0.1 (rob.reputation - 0.1) } ∧
    Msg.task_timeout id ∈ (check_task_timeouts s now).2 := by
  obtain ⟨L1, L2, hsplit⟩ := List.append_of_mem (mem_of_assocLookup_eq_some htask)
  have hnd' : ((L1.map Prod.fst) ++ id :: (L2.map Prod.fst)).Nodup := by
    have := hnd
    rw [hsplit] at this
    simpa using this
  obtain ⟨hndL1, hndR, hdisj⟩ := List.nodup_append.mp hnd'
  obtain ⟨hidL2, _⟩ := List.nodup_cons.mp hndR
  have hid1 : ∀ e ∈ L1, e.1 ≠ id := by
    intro e he hc
    exact hdisj (List.mem_map_of_mem Prod.fst he) (by rw [hc]; exact List.mem_cons_self _ _)
  have hid2 : ∀ e ∈ L2, e.1 ≠ id := by
    intro e he hc
    exact hidL2 (hc ▸ List.mem_map_of_mem Prod.fst he)
  have hnr1 : ∀ e ∈ L1, e.2.status = "assigned" → e.2.deadline < now →
      e.2.assigned_robot ≠ some rid := by
    intro e he h1 h2 hc
    exact hid1 e he (huniq e (by rw [hsplit]; exact List.mem_append_left _ he) h1 h2 hc)
  have hnr2 : ∀ e ∈ L2, e.2.status = "assigned" → e.2.deadline < now →
      e.2.assigned_robot ≠ some rid := by
    intro e he h1 h2 hc
    refine hid2 e he (huniq e ?_ h1 h2 hc)
    rw [hsplit]
    exact List.mem_append_right _ (List.mem_cons_of_mem _ he)
  unfold check_task_timeouts
  rw [hsplit, List.foldl_append, List.foldl_cons]
  have ht1 : assocLookup (L1.foldl (timeoutStep now) (s, [])).1.tasks id = some task := by
    rw [foldl_timeoutStep_tasks_pres now id L1 (s, []) hid1]
    exact htask
  have hr1 : assocLookup (L1.foldl (timeoutStep now) (s, [])).1.robots rid = some rob := by
    rw [foldl_timeoutStep_robots_pres now rid L1 (s, []) hnr1]
    exact hrob
  have hstep : timeoutStep now (L1.foldl (timeoutStep now) (s, [])) (id, task) =
      ({ (L1.foldl (timeoutStep now) (s, [])).1 with
          tasks := assocUpdate (L1.foldl (timeoutStep now) (s, [])).1.tasks id
            (fun t => { t with status := "expired" }),
          robots := assocUpdate (L1.foldl (timeoutStep now) (s, [])).1.robots rid
            (fun r => { r with status := "idle", current_task := none,
                               reputation := max 0.1 (r.reputation - 0.1) }) },
        (L1.foldl (timeoutStep now) (s, [])).2 ++ [Msg.task_timeout id]) := by
    unfold timeoutStep
    simp [hstatus, hdl, har]
  rw [hstep]
  refine ⟨?_, ?_, ?_⟩
  · unfold taskStatus
    rw [foldl_timeoutStep_tasks_pres now id L2 _ hid2]
    simp only [assocLookup_update_self, ht1, Option.map_map, Option.map_some]
    rfl
  · rw [foldl_timeoutStep_robots_pres now rid L2 _ hnr2]
    rw [assocLookup_update_self, hr1]
    rfl
  · refine foldl_timeoutStep_msgs_mono now (Msg.task_timeout id) L2 _ ?_
    simp

/-- C8 (witness).  The scan applied at time 301 to the assigned zone-A task
with deadline 300: the task expires, robot_alpha returns to idle with
reputation 0.8, and the timeout message is emitted. -/
theorem C8_deadline_expiry_witness :
    taskStatus (check_task_timeouts assignedLitState 301).1 1 = some "expired" ∧
    assocLookup (check_task_timeouts assignedLitState 301).1.robots "robot_alpha" =
      some { busyAlpha with status := "idle", current_task := none,
                            reputation := max 0.1 (busyAlpha.reputation - 0.1) } ∧
    Msg.task_timeout 1 ∈ (check_task_timeouts assignedLitState 301).2 :=
  C8_deadline_expiry assignedLitState 1 assignedTaskA "robot_alpha" busyAlpha 301
    rfl rfl (by norm_num [assignedTaskA, taskScanA]) rfl rfl (by decide)
    (fun e he _ _ _ => by rcases List.mem_singleton.mp he with rfl; rfl)

/-- Each single reputation update keeps the score inside the clamp band. -/
theorem recordOutcome_bounds (r : ℚ) (h1 : 0.1 ≤ r) (h2 : r ≤ 1) (o : Outcome) :
    0.1 ≤ recordOutcome r o ∧ recordOutcome r o ≤ 1 := by
  cases o with
  | success =>
    refine ⟨le_min (by norm_num) (by linarith), le_trans (min_le_left _ _) (by norm_num)⟩
  | failure =>
    refine ⟨le_max_left _ _, max_le (by norm_num) (by linarith)⟩
  | timeout =>
    refine ⟨le_max_left _ _, max_le (by norm_num) (by linarith)⟩

/-- Any fold of reputation updates stays inside the clamp band. -/
theorem foldl_recordOutcome_bounds (outcomes : List Outcome) :
    ∀ r : ℚ, 0.1 ≤ r → r ≤ 1 →
      0.1 ≤ outcomes.foldl recordOutcome r ∧ outcomes.foldl recordOutcome r ≤ 1 := by
  induction outcomes with
  | nil => intro r h1 h2; exact ⟨h1, h2⟩
  | cons o rest ih =>
    intro r h1 h2
    rw [List.foldl_cons]
    obtain ⟨g1, g2⟩ := recordOutcome_bounds r h1 h2 o
    exact ih _ g1 g2

/-- C9 (confirmed).  Reputation arithmetic: a verified success sets the
assigned robot's reputation to min 1 (r + 0.05), a verification failure to
max 0.1 (r - 0.1), the timeout scan to max 0.1 (r - 0.1) while freeing the
robot; and every sequence of such outcome updates starting from the initial
reputation 0.9 stays inside the interval from 0.1 to 1. -/
theorem C9_reputation_arithmetic :
    (∀ (s : CoordState) (id : Nat) (task : Task) (rid : String) (rob : Robot) (b : Bool),
      assocLookup s.tasks id = some task → task.assigned_robot = some rid →
      assocLookup s.robots rid = some rob →
      assocLookup (process_verified_task s id b).robots rid =
        some { rob with
                reputation := recordOutcome rob.reputation
                  (if b then Outcome.success else Outcome.failure) }) ∧
    (∀ (now : ℚ) (acc : CoordState × List Msg) (id : Nat) (task : Task) (rid : String)
      (rob : Robot),
      task.status = "assigned" → task.deadline < now → task.assigned_robot = some rid →
      assocLookup acc.1.robots rid = some rob →
      assocLookup (timeoutStep now acc (id, task)).1.robots rid =
        some { rob with
                status := "idle"
                current_task := none
                reputation := recordOutcome rob.reputation Outcome.timeout }) ∧
    (∀ outcomes : List Outcome,
      0.1 ≤ outcomes.foldl recordOutcome 0.9 ∧ outcomes.foldl recordOutcome 0.9 ≤ 1) := by
  refine ⟨?_, ?_, ?_⟩
  · intro s id task rid rob b htask har hrob
    cases b with
    | false =>
      simp only [process_verified_task, htask, har, Bool.false_eq_true, if_false]
      simp [assocLookup_update_self, hrob, recordOutcome]
    | true =>
      simp only [process_verified_task, htask, har, if_true]
      simp [assocLookup_update_self, hrob, recordOutcome]
  · intro now acc id task rid rob hstatus hdl har hrob
    simp only [timeoutStep, hstatus, hdl, and_self, if_true, har]
    simp [assocLookup_update_self, hrob, recordOutcome]
  · intro outcomes
    exact foldl_recordOutcome_bounds outcomes 0.9 (by norm_num) (by norm_num)

/-- C9 (witness).  The success branch applied to the assigned zone-A task:
robot_alpha's reputation becomes the success update of its current value. -/
theorem C9_reputation_arithmetic_witness :
    assocLookup (process_verified_task assignedLitState 1 true).robots "robot_alpha" =
      some { busyAlpha with
        reputation := recordOutcome busyAlpha.reputation Outcome.success } := by
  have h := C9_reputation_arithmetic.1 assignedLitState 1 assignedTaskA "robot_alpha"
    busyAlpha true rfl rfl rfl
  simpa using h

end RobotSwarm
